import Mathlib

/-!
Verification of the expense-split backend (src/main.py, src/schemas.py).

The embedding models:
  * pydantic field validation of the entity schemas `SplitItem`, `Expense`,
    `Group` (src/schemas.py).  Monetary / floating values are modelled as `ℚ`;
    every concrete input used below is a small integer, exact in both binary
    floating point and `ℚ`.
  * the request handlers `create_group` and `create_expense` (src/main.py),
    including the member deduplication `list(dict.fromkeys([*members, created_by]))`
    and the `amount <= 0` guard.
  * the document serializer `serialize_doc` (src/main.py lines 26-43), over an
    association-list model of Python dicts, plus a small heap model used to
    state that `serialize_doc` does not mutate its argument.
-/

namespace ExpenseSplit

/-- Modelled from the spec: pydantic's `EmailStr` delegates to the external
`email-validator` package (not part of this repository).  We model the check
as: exactly one `@`, with non-empty local part and non-empty domain part.
Every email used by the claims (e.g. `a@b.com`) is accepted by both the real
validator and this model. -/
def isEmail (s : String) : Bool :=
  let cs := s.toList
  let pre := cs.takeWhile (fun c => decide (c ≠ '@'))
  let post := cs.drop (pre.length + 1)
  (cs.count '@' = 1 : Bool) && (!pre.isEmpty) && (!post.isEmpty)

/-- The closed enumeration `Literal["equal", "exact", "percentage"]`
(src/schemas.py line 42). -/
inductive SplitType where
  | equal
  | exact
  | percentage
deriving DecidableEq, Repr

/-- Parse the discriminator string; any other string is rejected by pydantic. -/
def parseSplitType (s : String) : Option SplitType :=
  if s = "equal" then some .equal
  else if s = "exact" then some .exact
  else if s = "percentage" then some .percentage
  else none

/-- A validated `SplitItem` (src/schemas.py lines 40-47). -/
structure SplitItem where
  user : String
  type : SplitType
  share : ℚ
deriving DecidableEq, Repr

/-- A pydantic `ValidationError`: location (field path) and the violated
constraint. -/
structure ValidationError where
  loc : List String
  msg : String
deriving DecidableEq, Repr

/-- Raw (pre-validation) input to the `SplitItem` model: `none` means the
field is absent from the payload. -/
structure RawSplitItem where
  user : Option String := none
  type : Option String := none
  share : Option ℚ := none
deriving Repr

/-- pydantic validation of `SplitItem` (src/schemas.py lines 40-47):
`user` is a required `EmailStr`; `type` defaults to `"equal"` and must be one
of the three literals; `share` defaults to `0` and must be `≥ 0`. -/
def mkSplitItem (r : RawSplitItem) : Except ValidationError SplitItem :=
  match r.user with
  | none => .error ⟨["user"], "Field required"⟩
  | some u =>
    if isEmail u then
      match parseSplitType (r.type.getD "equal") with
      | none => .error ⟨["type"], "Input should be one of equal, exact or percentage"⟩
      | some t =>
        if 0 ≤ r.share.getD 0 then .ok ⟨u, t, r.share.getD 0⟩
        else .error ⟨["share"], "Input should be greater than or equal to 0"⟩
    else .error ⟨["user"], "value is not a valid email address"⟩

/-- A validated `Expense` (src/schemas.py lines 50-64).  `date` is modelled
as an optional opaque timestamp value (ℕ). -/
structure Expense where
  group_id : String
  description : String
  amount : ℚ
  currency : String
  paid_by : String
  date : Option Nat
  splits : List SplitItem
  notes : Option String
deriving DecidableEq, Repr

/-- Raw (pre-validation) input to the `Expense` model. -/
structure RawExpense where
  group_id : Option String := none
  description : Option String := none
  amount : Option ℚ := none
  currency : Option String := none
  paid_by : Option String := none
  date : Option Nat := none
  splits : Option (List RawSplitItem) := none
  notes : Option String := none

/-- Validate each raw split in order, failing on the first invalid one. -/
def validateSplits : List RawSplitItem → Except ValidationError (List SplitItem)
  | [] => .ok []
  | r :: rs =>
    match mkSplitItem r with
    | .error e => .error e
    | .ok s =>
      match validateSplits rs with
      | .error e => .error e
      | .ok ss => .ok (s :: ss)

/-- pydantic validation of `Expense` (src/schemas.py lines 50-64):
`group_id`, `description` required strings (no emptiness constraint);
`amount` required with `gt=0`; `currency` defaults to `"USD"`;
`paid_by` required `EmailStr`; `date` optional; `splits` defaults to `[]`,
each element validated as a `SplitItem`; `notes` optional. -/
def mkExpense (r : RawExpense) : Except ValidationError Expense :=
  match r.group_id with
  | none => .error ⟨["group_id"], "Field required"⟩
  | some gid =>
    match r.description with
    | none => .error ⟨["description"], "Field required"⟩
    | some desc =>
      match r.amount with
      | none => .error ⟨["amount"], "Field required"⟩
      | some amt =>
        if 0 < amt then
          match r.paid_by with
          | none => .error ⟨["paid_by"], "Field required"⟩
          | some pb =>
            if isEmail pb then
              match validateSplits (r.splits.getD []) with
              | .error e => .error e
              | .ok ss =>
                .ok ⟨gid, desc, amt, r.currency.getD "USD", pb, r.date, ss, r.notes⟩
            else .error ⟨["paid_by"], "value is not a valid email address"⟩
        else .error ⟨["amount"], "Input should be greater than 0"⟩

/-- A validated `Group` (src/schemas.py lines 28-37). -/
structure Group where
  name : String
  created_by : String
  members : List String
  default_currency : String
  image_url : Option String
deriving DecidableEq, Repr

/-- Raw (pre-validation) input to the `Group` model. -/
structure RawGroup where
  name : Option String := none
  created_by : Option String := none
  members : Option (List String) := none
  default_currency : Option String := none
  image_url : Option String := none

/-- pydantic validation of `Group` (src/schemas.py lines 28-37): `name`
required string (no emptiness constraint); `created_by` required `EmailStr`;
`members` required list of `EmailStr`; `default_currency` defaults to
`"USD"`; `image_url` optional. -/
def mkGroup (r : RawGroup) : Except ValidationError Group :=
  match r.name with
  | none => .error ⟨["name"], "Field required"⟩
  | some nm =>
    match r.created_by with
    | none => .error ⟨["created_by"], "Field required"⟩
    | some cb =>
      if isEmail cb then
        match r.members with
        | none => .error ⟨["members"], "Field required"⟩
        | some ms =>
          if ms.all isEmail then
            .ok ⟨nm, cb, ms, r.default_currency.getD "USD", r.image_url⟩
          else .error ⟨["members"], "value is not a valid email address"⟩
      else .error ⟨["created_by"], "value is not a valid email address"⟩

/-- First-occurrence deduplication: the behaviour of Python's
`list(dict.fromkeys(xs))` (src/main.py line 108). -/
def dedupFirst : List String → List String
  | [] => []
  | x :: xs => x :: dedupFirst (xs.filter (fun y => decide (y ≠ x)))
termination_by l => l.length
decreasing_by
  simp only [List.length_cons]
  exact Nat.lt_succ_of_le (List.length_filter_le _ _)

/-- The member normalization performed by `create_group` (src/main.py line
108): `list(dict.fromkeys([*(payload.members or []), payload.created_by]))`. -/
def normalizeMembers (createdBy : String) (members : List String) : List String :=
  dedupFirst (members ++ [createdBy])

/-- Parsed `CreateGroup` payload (src/main.py lines 97-102): pydantic has
already checked that `created_by` and every member are email-shaped. -/
structure CreateGroupPayload where
  name : String
  created_by : String
  members : List String
  default_currency : String := "USD"
  image_url : Option String := none

/-- The `POST /groups` handler (src/main.py lines 105-117), up to the
persistence call: it builds the deduplicated member list and constructs the
`Group`. -/
def create_group (p : CreateGroupPayload) : Group :=
  { name := p.name
    created_by := p.created_by
    members := normalizeMembers p.created_by p.members
    default_currency := p.default_currency
    image_url := p.image_url }

/-- Raw (pre-validation) input to the `CreateExpense` request model
(src/main.py lines 133-141).  Note that `splits` reuses the `List[SplitItem]`
annotation but has no default, so it is a required field. -/
structure RawCreateExpense where
  group_id : Option String := none
  description : Option String := none
  amount : Option ℚ := none
  currency : Option String := none
  paid_by : Option String := none
  date : Option String := none
  splits : Option (List RawSplitItem) := none
  notes : Option String := none

/-- Parsed `CreateExpense` payload (src/main.py lines 133-141). -/
structure CreateExpensePayload where
  group_id : String
  description : String
  amount : ℚ
  currency : String
  paid_by : String
  date : Option String
  splits : List SplitItem
  notes : Option String

/-- pydantic validation of the `CreateExpense` request model (src/main.py
lines 133-141): `group_id`, `description`, `amount` required with no bounds;
`currency` defaults to `"USD"`; `paid_by` required `EmailStr`; `date`
optional ISO string (not parsed); `splits` required, each element a
`SplitItem`; `notes` optional. -/
def parseCreateExpense (r : RawCreateExpense) : Except ValidationError CreateExpensePayload :=
  match r.group_id with
  | none => .error ⟨["group_id"], "Field required"⟩
  | some gid =>
    match r.description with
    | none => .error ⟨["description"], "Field required"⟩
    | some desc =>
      match r.amount with
      | none => .error ⟨["amount"], "Field required"⟩
      | some amt =>
        match r.paid_by with
        | none => .error ⟨["paid_by"], "Field required"⟩
        | some pb =>
          if isEmail pb then
            match r.splits with
            | none => .error ⟨["splits"], "Field required"⟩
            | some rss =>
              match validateSplits rss with
              | .error e => .error e
              | .ok ss =>
                .ok ⟨gid, desc, amt, r.currency.getD "USD", pb, r.date, ss, r.notes⟩
          else .error ⟨["paid_by"], "value is not a valid email address"⟩

/-- Turn a validated split item back into raw form, as the handler feeds the
payload's splits to the `Expense` constructor (which re-validates them). -/
def SplitItem.toRaw (s : SplitItem) : RawSplitItem :=
  { user := some s.user
    type := some (match s.type with
                  | .equal => "equal"
                  | .exact => "exact"
                  | .percentage => "percentage")
    share := some s.share }

/-- The errors the `POST /expenses` handler can surface: the explicit
`HTTPException(400)` for a non-positive amount, or a pydantic
`ValidationError` from model construction. -/
inductive CreateError where
  | httpError (status : Nat) (detail : String)
  | validation (e : ValidationError)
deriving DecidableEq, Repr

/-- The `POST /expenses` handler body (src/main.py lines 144-162), after the
payload has been parsed, up to the persistence call: reject `amount <= 0`
with HTTP 400, then construct the `Expense` with `date=None` and the
payload's splits passed through unchanged. -/
def create_expense (p : CreateExpensePayload) : Except CreateError Expense :=
  if p.amount ≤ 0 then .error (.httpError 400 "Amount must be greater than 0")
  else
    match mkExpense { group_id := some p.group_id
                      description := some p.description
                      amount := some p.amount
                      currency := some p.currency
                      paid_by := some p.paid_by
                      date := none
                      splits := some (p.splits.map SplitItem.toRaw)
                      notes := p.notes } with
    | .ok e => .ok e
    | .error e => .error (.validation e)

/-- The full `POST /expenses` pipeline: FastAPI first validates the payload
against `CreateExpense`, then runs the handler. -/
def create_expense_endpoint (r : RawCreateExpense) : Except CreateError Expense :=
  match parseCreateExpense r with
  | .error e => .error (.validation e)
  | .ok p => create_expense p

/-- Sum of the `share` fields of a split list: what the stored expense
actually records for the per-user portions. -/
def sumShares (ss : List SplitItem) : ℚ :=
  (ss.map SplitItem.share).sum

/-! ### Document serialization (`serialize_doc`, src/main.py lines 26-43) -/

/-- A naive calendar timestamp, enough to model `datetime` values stored in
documents. -/
structure Datetime where
  year : Nat
  month : Nat
  day : Nat
  hour : Nat
  minute : Nat
  second : Nat
deriving DecidableEq, Repr

/-- Zero-pad a numeral to two digits, as Python's datetime formatting does. -/
def pad2 (n : Nat) : String :=
  if n < 10 then "0" ++ toString n else toString n

/-- `datetime.isoformat()`: `YYYY-MM-DDTHH:MM:SS`. -/
def Datetime.isoformat (t : Datetime) : String :=
  toString t.year ++ "-" ++ pad2 t.month ++ "-" ++ pad2 t.day ++ "T" ++
    pad2 t.hour ++ ":" ++ pad2 t.minute ++ ":" ++ pad2 t.second

/-- `str(datetime)`: same as isoformat but with a space separator. -/
def Datetime.pystr (t : Datetime) : String :=
  toString t.year ++ "-" ++ pad2 t.month ++ "-" ++ pad2 t.day ++ " " ++
    pad2 t.hour ++ ":" ++ pad2 t.minute ++ ":" ++ pad2 t.second

/-- Values a stored Mongo document can hold, as far as `serialize_doc`
distinguishes them. `vObjectId` models the generated identifier. -/
inductive Value where
  | vStr (s : String)
  | vInt (n : Int)
  | vRat (q : ℚ)
  | vBool (b : Bool)
  | vNull
  | vDatetime (t : Datetime)
  | vObjectId (oid : String)
  | vListStr (xs : List String)
deriving DecidableEq, Repr

/-- Python `str(...)` on a document value. -/
def pyStr : Value → String
  | .vStr s => s
  | .vInt n => toString n
  | .vRat q => toString q
  | .vBool b => if b then "True" else "False"
  | .vNull => "None"
  | .vDatetime t => t.pystr
  | .vObjectId oid => oid
  | .vListStr xs => toString xs

/-- A Python dict, modelled as an insertion-ordered association list.
Real dicts have unique keys; theorems that depend on it assume
`(d.map Prod.fst).Nodup`. -/
abbrev Doc : Type := List (String × Value)

/-- `d.get(k)`-style lookup: first binding of the key. -/
def lookupD : Doc → String → Option Value
  | [], _ => none
  | (k, v) :: rest, key => if k = key then some v else lookupD rest key

/-- Remove the first binding of a key (`d.pop(k, None)` removes the key). -/
def eraseKey : Doc → String → Doc
  | [], _ => []
  | (k, v) :: rest, key => if k = key then rest else (k, v) :: eraseKey rest key

/-- `d[k] = v`: update in place when the key exists (Python dicts keep the
original position), append otherwise. -/
def setKey : Doc → String → Value → Doc
  | [], key, val => [(key, val)]
  | (k, v) :: rest, key, val =>
    if k = key then (key, val) :: rest else (k, v) :: setKey rest key val

/-- The datetime-to-isoformat rewriting of a single value, as done by the
loop `for k, v in list(d.items()): if isinstance(v, datetime): d[k] = v.isoformat()`. -/
def dtConv : Value → Value
  | .vDatetime t => .vStr t.isoformat
  | v => v

/-- The non-empty-document branch of `serialize_doc` (src/main.py lines
30-43): copy, pop `_id`, add `id = str(_id)` when `_id` was not `None`, then
convert every datetime value to its isoformat string. -/
def serializeDocCore (doc : Doc) : Doc :=
  let popped := lookupD doc "_id"
  let d := eraseKey doc "_id"
  let d :=
    match popped with
    | some v => if v ≠ Value.vNull then setKey d "id" (.vStr (pyStr v)) else d
    | none => d
  d.map (fun kv => (kv.1, dtConv kv.2))

/-- `serialize_doc` (src/main.py lines 26-43).  The argument is `none` for a
Python `None` document; `if not doc` also returns an empty dict unchanged. -/
def serialize_doc : Option Doc → Option Doc
  | none => none
  | some doc => if doc.isEmpty then some doc else some (serializeDocCore doc)

/-! ### Heap model for the frame property of `serialize_doc`

`serialize_doc` starts with `d = dict(doc)`, a fresh copy, and every mutating
statement (`d.pop`, `d["id"] = ...`, `d[k] = v.isoformat()`) targets the
copy.  We model a heap of dict objects addressed by index; `dict(doc)`
allocates a fresh cell. -/

/-- A heap of dict objects; a reference is an index into `cells`. -/
structure Heap where
  cells : List Doc

/-- Read the dict at a reference. -/
def Heap.read (h : Heap) (r : Nat) : Doc :=
  h.cells.getD r []

/-- Overwrite the dict at a reference. -/
def Heap.write (h : Heap) (r : Nat) (d : Doc) : Heap :=
  ⟨h.cells.set r d⟩

/-- Allocate a fresh dict object, returning its reference. -/
def Heap.alloc (h : Heap) (d : Doc) : Heap × Nat :=
  (⟨h.cells ++ [d]⟩, h.cells.length)

/-- `serialize_doc` on the heap model: `if not doc: return doc` returns the
argument reference itself; otherwise `d = dict(doc)` allocates a copy and
each subsequent mutation writes to the copy.  Returns the final heap and the
reference to the result dict. -/
def serialize_doc_heap (h : Heap) (docRef : Nat) : Heap × Nat :=
  let doc := h.read docRef
  if doc.isEmpty then (h, docRef)
  else
    let h1 := (h.alloc doc).1
    let dRef := (h.alloc doc).2
    let d0 := h1.read dRef
    let h2 := h1.write dRef (eraseKey d0 "_id")
    let h3 :=
      match lookupD d0 "_id" with
      | some v =>
        if v ≠ Value.vNull then
          h2.write dRef (setKey (h2.read dRef) "id" (.vStr (pyStr v)))
        else h2
      | none => h2
    let h4 := h3.write dRef ((h3.read dRef).map (fun kv => (kv.1, dtConv kv.2)))
    (h4, dRef)

/-! ### Helper lemmas on `dedupFirst` -/

theorem dedupFirst_sublist (l : List String) : List.Sublist (dedupFirst l) l := by
  match l with
  | [] => simp [dedupFirst]
  | x :: xs =>
    rw [dedupFirst]
    exact List.Sublist.cons₂ x
      ((dedupFirst_sublist (xs.filter (fun y => decide (y ≠ x)))).trans
        (List.filter_sublist xs))
termination_by l.length
decreasing_by
  simp only [List.length_cons]
  exact Nat.lt_succ_of_le (List.length_filter_le _ _)

theorem mem_dedupFirst (a : String) (l : List String) : a ∈ dedupFirst l ↔ a ∈ l := by
  match l with
  | [] => simp [dedupFirst]
  | x :: xs =>
    rw [dedupFirst]
    simp only [List.mem_cons, mem_dedupFirst a (xs.filter (fun y => decide (y ≠ x))),
      List.mem_filter, decide_eq_true_iff]
    constructor
    · rintro (rfl | ⟨h, _⟩)
      · exact Or.inl rfl
      · exact Or.inr h
    · rintro (rfl | h)
      · exact Or.inl rfl
      · by_cases hax : a = x
        · exact Or.inl hax
        · exact Or.inr ⟨h, hax⟩
termination_by l.length
decreasing_by
  simp only [List.length_cons]
  exact Nat.lt_succ_of_le (List.length_filter_le _ _)

theorem nodup_dedupFirst (l : List String) : (dedupFirst l).Nodup := by
  match l with
  | [] => simp [dedupFirst]
  | x :: xs =>
    rw [dedupFirst]
    refine List.nodup_cons.mpr ⟨?_, nodup_dedupFirst (xs.filter (fun y => decide (y ≠ x)))⟩
    intro hx
    rw [mem_dedupFirst] at hx
    have := (List.mem_filter.mp hx).2
    simp at this
termination_by l.length
decreasing_by
  simp only [List.length_cons]
  exact Nat.lt_succ_of_le (List.length_filter_le _ _)

/-! ### Helper lemmas on the validators -/

theorem mkSplitItem_ok {r : RawSplitItem} {s : SplitItem} (h : mkSplitItem r = .ok s) :
    isEmail s.user = true ∧ 0 ≤ s.share ∧ s.share = r.share.getD 0 ∧
      parseSplitType (r.type.getD "equal") = some s.type := by
  unfold mkSplitItem at h
  repeat' split at h
  all_goals cases h
  exact ⟨by assumption, by assumption, rfl, by assumption⟩

theorem validateSplits_ok {rs : List RawSplitItem} {ss : List SplitItem}
    (h : validateSplits rs = .ok ss) :
    ∀ s ∈ ss, isEmail s.user = true ∧ 0 ≤ s.share := by
  induction rs generalizing ss with
  | nil =>
    unfold validateSplits at h
    cases h
    intro s hs
    cases hs
  | cons r rs ih =>
    unfold validateSplits at h
    split at h
    · cases h
    · split at h
      · cases h
      · cases h
        intro s hs
        rcases List.mem_cons.mp hs with rfl | hmem
        · have := mkSplitItem_ok (by assumption)
          exact ⟨this.1, this.2.1⟩
        · exact ih (by assumption) s hmem

theorem mkExpense_ok {r : RawExpense} {e : Expense} (h : mkExpense r = .ok e) :
    0 < e.amount ∧ r.amount = some e.amount ∧ isEmail e.paid_by = true ∧
      e.date = r.date ∧ (∀ s ∈ e.splits, isEmail s.user = true ∧ 0 ≤ s.share) := by
  unfold mkExpense at h
  repeat' split at h
  all_goals cases h
  exact ⟨by assumption, by assumption, by assumption, rfl, validateSplits_ok (by assumption)⟩

theorem mkGroup_ok {r : RawGroup} {g : Group} (h : mkGroup r = .ok g) :
    isEmail g.created_by = true ∧ ∀ m ∈ g.members, isEmail m = true := by
  unfold mkGroup at h
  repeat' split at h
  all_goals cases h
  refine ⟨by assumption, ?_⟩
  intro m hm
  exact List.all_eq_true.mp (by assumption) m hm

/-! ### Helper lemmas on documents -/

theorem lookupD_eq_none {d : Doc} {k : String} (hk : k ∉ d.map Prod.fst) :
    lookupD d k = none := by
  induction d with
  | nil => rfl
  | cons kv rest ih =>
    obtain ⟨k0, v0⟩ := kv
    simp only [List.map_cons, List.mem_cons, not_or] at hk
    rw [lookupD, if_neg (fun hh => hk.1 hh.symm)]
    exact ih hk.2

theorem keys_eraseKey {d : Doc} (hnd : (d.map Prod.fst).Nodup) (k : String) :
    k ∉ (eraseKey d k).map Prod.fst := by
  induction d with
  | nil => simp [eraseKey]
  | cons kv rest ih =>
    obtain ⟨k0, v0⟩ := kv
    simp only [List.map_cons, List.nodup_cons] at hnd
    by_cases hk : k0 = k
    · subst hk
      rw [eraseKey, if_pos rfl]
      exact hnd.1
    · rw [eraseKey, if_neg hk]
      simp only [List.map_cons, List.mem_cons, not_or]
      exact ⟨fun hh => hk hh.symm, ih hnd.2⟩

theorem lookupD_eraseKey_self {d : Doc} (hnd : (d.map Prod.fst).Nodup) (k : String) :
    lookupD (eraseKey d k) k = none :=
  lookupD_eq_none (keys_eraseKey hnd k)

theorem lookupD_eraseKey_ne (d : Doc) {k k' : String} (hne : k' ≠ k) :
    lookupD (eraseKey d k) k' = lookupD d k' := by
  induction d with
  | nil => rfl
  | cons kv rest ih =>
    obtain ⟨k0, v0⟩ := kv
    by_cases hk : k0 = k
    · subst hk
      rw [eraseKey, if_pos rfl, lookupD, if_neg (fun hh => hne hh.symm)]
    · rw [eraseKey, if_neg hk, lookupD, lookupD]
      by_cases hk' : k0 = k'
      · rw [if_pos hk', if_pos hk']
      · rw [if_neg hk', if_neg hk']
        exact ih

theorem lookupD_setKey_self (d : Doc) (k : String) (v : Value) :
    lookupD (setKey d k v) k = some v := by
  induction d with
  | nil => simp [setKey, lookupD]
  | cons kv rest ih =>
    obtain ⟨k0, v0⟩ := kv
    by_cases hk : k0 = k
    · rw [setKey, if_pos hk, lookupD, if_pos rfl]
    · rw [setKey, if_neg hk, lookupD, if_neg hk]
      exact ih

theorem lookupD_setKey_ne (d : Doc) {k k' : String} (v : Value) (hne : k' ≠ k) :
    lookupD (setKey d k v) k' = lookupD d k' := by
  induction d with
  | nil => simp [setKey, lookupD, Ne.symm hne]
  | cons kv rest ih =>
    obtain ⟨k0, v0⟩ := kv
    by_cases hk : k0 = k
    · subst hk
      rw [setKey, if_pos rfl, lookupD, lookupD,
        if_neg (show ¬(k0 = k') from fun hh => hne hh.symm)]
      rw [if_neg (show ¬(k0 = k') from fun hh => hne hh.symm)]
    · rw [setKey, if_neg hk, lookupD, lookupD]
      by_cases hk' : k0 = k'
      · rw [if_pos hk', if_pos hk']
      · rw [if_neg hk', if_neg hk']
        exact ih

theorem lookupD_mapVal (d : Doc) (f : Value → Value) (k : String) :
    lookupD (d.map (fun kv => (kv.1, f kv.2))) k = (lookupD d k).map f := by
  induction d with
  | nil => rfl
  | cons kv rest ih =>
    obtain ⟨k0, v0⟩ := kv
    by_cases hk : k0 = k
    · simp only [List.map_cons, lookupD, if_pos hk]
      rfl
    · simp only [List.map_cons, lookupD, if_neg hk]
      exact ih

/-! ### Helper lemmas on the heap model -/

theorem Heap.read_write_self (h : Heap) {r : Nat} (d : Doc) (hr : r < h.cells.length) :
    (h.write r d).read r = d := by
  simp [Heap.read, Heap.write, List.getD_eq_getElem?_getD, List.getElem?_set_self, hr]

theorem Heap.read_write_ne (h : Heap) {r r' : Nat} (d : Doc) (hne : r' ≠ r) :
    (h.write r d).read r' = h.read r' := by
  simp [Heap.read, Heap.write, List.getD_eq_getElem?_getD, List.getElem?_set_ne (fun hh => hne hh.symm)]

theorem Heap.read_alloc_old (h : Heap) (d : Doc) {r : Nat} (hr : r < h.cells.length) :
    (h.alloc d).1.read r = h.read r := by
  simp [Heap.read, Heap.alloc, List.getD_eq_getElem?_getD, List.getElem?_append_left hr]

theorem Heap.read_alloc_new (h : Heap) (d : Doc) :
    (h.alloc d).1.read (h.alloc d).2 = d := by
  simp [Heap.read, Heap.alloc, List.getD_eq_getElem?_getD]

theorem Heap.write_length (h : Heap) (r : Nat) (d : Doc) :
    (h.write r d).cells.length = h.cells.length := by
  simp [Heap.write]

/-! ### Concrete inputs used to evaluate the endpoint -/

/-- A well-formed `POST /expenses` payload with the given amount and splits. -/
def splitReq (amt : ℚ) (ss : List RawSplitItem) : RawCreateExpense :=
  { group_id := some "g1"
    description := some "dinner"
    amount := some amt
    paid_by := some "p@x.com"
    splits := some ss }

def reqC1 : RawCreateExpense :=
  splitReq 100
    [{ user := some "a@x.com", type := some "exact", share := some 30 },
     { user := some "b@x.com", type := some "equal" }]

def expC1 : Expense :=
  { group_id := "g1", description := "dinner", amount := 100, currency := "USD",
    paid_by := "p@x.com", date := none,
    splits := [⟨"a@x.com", .exact, 30⟩, ⟨"b@x.com", .equal, 0⟩], notes := none }

/-- C1: the spec requires that for any accepted non-empty splits the
normalized per-user amounts sum to the amount exactly.  The code performs no
normalization at all: the spec's own round-trip example
(`amount = 100`, `splits = [{A, exact, 30}, {B, equal}]`, expected shares
`{A: 30, B: 70}`) is accepted without error and persisted with raw shares
`[30, 0]`, which sum to `30 ≠ 100`. -/
theorem create_expense_no_normalization :
    create_expense_endpoint reqC1 = .ok expC1 ∧
    expC1.amount = 100 ∧
    sumShares expC1.splits = 30 ∧
    sumShares expC1.splits ≠ expC1.amount := by
  refine ⟨rfl, rfl, by norm_num [sumShares, expC1], by norm_num [sumShares, expC1]⟩

def reqC2p : RawCreateExpense :=
  splitReq 100
    [{ user := some "a@x.com", type := some "percentage", share := some 60 },
     { user := some "b@x.com", type := some "percentage", share := some 60 }]

def expC2p : Expense :=
  { group_id := "g1", description := "dinner", amount := 100, currency := "USD",
    paid_by := "p@x.com", date := none,
    splits := [⟨"a@x.com", .percentage, 60⟩, ⟨"b@x.com", .percentage, 60⟩], notes := none }

def reqC2x : RawCreateExpense :=
  splitReq 100
    [{ user := some "a@x.com", type := some "exact", share := some 60 },
     { user := some "b@x.com", type := some "exact", share := some 60 }]

def expC2x : Expense :=
  { group_id := "g1", description := "dinner", amount := 100, currency := "USD",
    paid_by := "p@x.com", date := none,
    splits := [⟨"a@x.com", .exact, 60⟩, ⟨"b@x.com", .exact, 60⟩], notes := none }

/-- C2: the spec requires `SplitOverflowError` when percentage splits exceed
100% or exact splits exceed the amount.  The code raises no such error: the
spec's own example (`amount = 100`, two 60% splits, 120% total) is accepted
and persisted, and so is an exact-split total of 120 over an amount of
100. -/
theorem create_expense_accepts_overflow :
    create_expense_endpoint reqC2p = .ok expC2p ∧
    sumShares expC2p.splits = 120 ∧
    create_expense_endpoint reqC2x = .ok expC2x ∧
    sumShares expC2x.splits = 120 ∧
    expC2x.amount < sumShares expC2x.splits := by
  refine ⟨rfl, by norm_num [sumShares, expC2p], rfl,
    by norm_num [sumShares, expC2x], by norm_num [sumShares, expC2x]⟩

def reqC3 : RawCreateExpense :=
  splitReq 100
    [{ user := some "a@x.com", type := some "equal" },
     { user := some "a@x.com", type := some "exact", share := some 10 }]

def expC3 : Expense :=
  { group_id := "g1", description := "dinner", amount := 100, currency := "USD",
    paid_by := "p@x.com", date := none,
    splits := [⟨"a@x.com", .equal, 0⟩, ⟨"a@x.com", .exact, 10⟩], notes := none }

/-- C3: the spec requires `DuplicateSplitUserError` when the same user
appears twice in one expense's splits.  The code never checks for duplicate
users: the spec's own example (`amount = 100`,
`splits = [{A, equal}, {A, exact, 10}]`) is accepted and persisted with the
duplicated user. -/
theorem create_expense_accepts_duplicate_user :
    create_expense_endpoint reqC3 = .ok expC3 ∧
    expC3.splits.map SplitItem.user = ["a@x.com", "a@x.com"] ∧
    ¬ (expC3.splits.map SplitItem.user).Nodup := by
  refine ⟨rfl, rfl, by simp [expC3]⟩

def reqC4 : RawCreateExpense :=
  splitReq 10 [{ user := some "a@x.com", type := some "exact", share := some 7 }]

def expC4 : Expense :=
  { group_id := "g1", description := "dinner", amount := 10, currency := "USD",
    paid_by := "p@x.com", date := none,
    splits := [⟨"a@x.com", .exact, 7⟩], notes := none }

def reqC4e : RawCreateExpense := splitReq 100 []

def expC4e : Expense :=
  { group_id := "g1", description := "dinner", amount := 100, currency := "USD",
    paid_by := "p@x.com", date := none, splits := [], notes := none }

/-- C4: the spec requires `SplitShortfallError` when there are no `equal`
entries and the resolved total falls short of the amount.  The code raises
no such error: the spec's own example (`amount = 10`,
`splits = [{A, exact, 7}]`) is accepted and persisted with 3 unaccounted.
The second half of the claim does hold: entirely empty splits are accepted
with no shares stored. -/
theorem create_expense_accepts_shortfall :
    create_expense_endpoint reqC4 = .ok expC4 ∧
    sumShares expC4.splits = 7 ∧
    sumShares expC4.splits < expC4.amount ∧
    create_expense_endpoint reqC4e = .ok expC4e ∧
    expC4e.splits = [] := by
  refine ⟨rfl, by norm_num [sumShares, expC4], by norm_num [sumShares, expC4], rfl, rfl⟩

/-- C5: the member list stored by `create_group` is the concatenation of the
payload's members with the creator appended, deduplicated keeping first
occurrences: it contains the creator exactly once, has no duplicates,
preserves the relative order of the surviving inputs (it is a sublist of the
concatenation), and its membership is exactly the input members plus the
creator. -/
theorem create_group_members_normalized (p : CreateGroupPayload) :
    (create_group p).members = dedupFirst (p.members ++ [p.created_by]) ∧
    (create_group p).members.count p.created_by = 1 ∧
    (create_group p).members.Nodup ∧
    List.Sublist (create_group p).members (p.members ++ [p.created_by]) ∧
    (∀ a, a ∈ (create_group p).members ↔ a ∈ p.members ∨ a = p.created_by) := by
  refine ⟨rfl, ?_, nodup_dedupFirst _, dedupFirst_sublist _, ?_⟩
  · exact List.count_eq_one_of_mem (nodup_dedupFirst _)
      ((mem_dedupFirst _ _).mpr (by simp))
  · intro a
    have : (create_group p).members = dedupFirst (p.members ++ [p.created_by]) := rfl
    rw [this, mem_dedupFirst]
    simp

theorem parseCreateExpense_ok_amount {r : RawCreateExpense} {p : CreateExpensePayload}
    (h : parseCreateExpense r = .ok p) : r.amount = some p.amount := by
  unfold parseCreateExpense at h
  repeat' split at h
  all_goals cases h
  assumption

/-- C6: a request with `amount ≤ 0` is rejected (the handler's explicit
HTTP 400 guard, before the `Expense` is built or persisted), and every
`Expense` that pydantic validation accepts has `amount > 0` (the `gt=0`
bound in the schema). -/
theorem create_expense_rejects_nonpositive_amount :
    (∀ p : CreateExpensePayload, p.amount ≤ 0 →
        create_expense p = .error (.httpError 400 "Amount must be greater than 0")) ∧
    (∀ (r : RawCreateExpense) (q : ℚ), r.amount = some q → q ≤ 0 →
        ∃ err, create_expense_endpoint r = .error err) ∧
    (∀ (r : RawExpense) (e : Expense), mkExpense r = .ok e → 0 < e.amount) := by
  refine ⟨?_, ?_, ?_⟩
  · intro p hp
    unfold create_expense
    rw [if_pos hp]
  · intro r q hq hle
    unfold create_expense_endpoint
    cases hpc : parseCreateExpense r with
    | error e => exact ⟨.validation e, rfl⟩
    | ok p =>
      have hpa : p.amount = q := by
        have := parseCreateExpense_ok_amount hpc
        rw [hq] at this
        exact (Option.some_inj.mp this).symm
      refine ⟨.httpError 400 "Amount must be greater than 0", ?_⟩
      unfold create_expense
      dsimp only
      rw [if_pos (show p.amount ≤ 0 from hpa ▸ hle)]
  · intro r e h
    exact (mkExpense_ok h).1

def reqC6 : RawCreateExpense := splitReq 0 []

def rawC6 : RawExpense :=
  { group_id := some "g", description := some "d", amount := some 5,
    paid_by := some "a@b.com" }

def expC6 : Expense := ⟨"g", "d", 5, "USD", "a@b.com", none, [], none⟩

/-- Witness for C6 at concrete inputs: amount 0 is rejected, and a validated
expense with amount 5 indeed has positive amount. -/
theorem create_expense_rejects_nonpositive_amount_witness :
    (∃ err, create_expense_endpoint reqC6 = .error err) ∧ 0 < expC6.amount :=
  ⟨create_expense_rejects_nonpositive_amount.2.1 reqC6 0 rfl (le_refl 0),
   create_expense_rejects_nonpositive_amount.2.2 rawC6 expC6 rfl⟩

/-- C9: whatever `date` string the payload carries, the handler constructs
the `Expense` with `date=None` (src/main.py line 157), so every accepted
request stores an expense whose date is absent. -/
theorem create_expense_discards_date (r : RawCreateExpense) (e : Expense)
    (h : create_expense_endpoint r = .ok e) : e.date = none := by
  unfold create_expense_endpoint at h
  split at h
  · cases h
  · unfold create_expense at h
    split at h
    · cases h
    · split at h
      · cases h
        have := mkExpense_ok (by assumption)
        exact this.2.2.2.1
      · cases h

def reqC9 : RawCreateExpense :=
  { group_id := some "g1", description := some "d", amount := some 5,
    paid_by := some "p@q.com", date := some "2024-01-01T00:00:00",
    splits := some [] }

def expC9 : Expense := ⟨"g1", "d", 5, "USD", "p@q.com", none, [], none⟩

/-- Witness for C9: a request that supplies a date string is accepted and
the stored expense has no date. -/
theorem create_expense_discards_date_witness : expC9.date = none :=
  create_expense_discards_date reqC9 expC9 rfl

def rawGroupC7 : RawGroup :=
  { name := some "", created_by := some "a@b.com", members := some ["a@b.com"] }

def groupC7 : Group := ⟨"", "a@b.com", ["a@b.com"], "USD", none⟩

def rawExpC7 : RawExpense :=
  { group_id := some "g", description := some "", amount := some 5,
    paid_by := some "a@b.com" }

def expC7 : Expense := ⟨"g", "", 5, "USD", "a@b.com", none, [], none⟩

/-- C7 counterexample: the claim requires required text fields to be
non-empty (naming `Group.name` and `Expense.description`) with any violation
failing construction.  The schemas impose no such constraint: a `Group` with
an empty name and an `Expense` with an empty description are both accepted. -/
theorem validation_accepts_empty_required_text :
    mkGroup rawGroupC7 = .ok groupC7 ∧ groupC7.name = "" ∧
    mkExpense rawExpC7 = .ok expC7 ∧ expC7.description = "" :=
  ⟨rfl, rfl, rfl, rfl⟩

/-- C7 (amended): construction is all-or-nothing with a `ValidationError`,
and field constraints are enforced — required fields present, `amount > 0`,
`share ≥ 0`, email-shaped identity fields, `type` in the closed enumeration —
but emptiness of text fields is not checked: empty strings pass.  Stated as:
accepted entities satisfy the numeric/email constraints; a negative share, an
unknown `type` string, or a missing required field each fail with an error. -/
theorem entity_field_constraints_enforced :
    (∀ (r : RawExpense) (e : Expense), mkExpense r = .ok e →
        0 < e.amount ∧ isEmail e.paid_by = true ∧
        ∀ s ∈ e.splits, isEmail s.user = true ∧ 0 ≤ s.share) ∧
    (∀ (r : RawSplitItem) (s : SplitItem), mkSplitItem r = .ok s →
        isEmail s.user = true ∧ 0 ≤ s.share) ∧
    (∀ (r : RawSplitItem) (q : ℚ), r.share = some q → q < 0 →
        ∃ err, mkSplitItem r = .error err) ∧
    (∀ (r : RawSplitItem) (t : String), r.type = some t → parseSplitType t = none →
        ∃ err, mkSplitItem r = .error err) ∧
    (∀ r : RawExpense, r.amount = none → ∃ err, mkExpense r = .error err) ∧
    (∀ (r : RawGroup) (g : Group), mkGroup r = .ok g →
        isEmail g.created_by = true ∧ ∀ m ∈ g.members, isEmail m = true) := by
  refine ⟨?_, ?_, ?_, ?_, ?_, ?_⟩
  · intro r e h
    have := mkExpense_ok h
    exact ⟨this.1, this.2.2.1, this.2.2.2.2⟩
  · intro r s h
    have := mkSplitItem_ok h
    exact ⟨this.1, this.2.1⟩
  · intro r q hq hlt
    cases hms : mkSplitItem r with
    | error err => exact ⟨err, rfl⟩
    | ok s =>
      exfalso
      have hok := mkSplitItem_ok hms
      have h2 := hok.2.1
      rw [hok.2.2.1, hq] at h2
      simp only [Option.getD_some] at h2
      exact absurd h2 (not_le.mpr hlt)
  · intro r t ht hpt
    cases hms : mkSplitItem r with
    | error err => exact ⟨err, rfl⟩
    | ok s =>
      exfalso
      have hok := (mkSplitItem_ok hms).2.2.2
      rw [ht] at hok
      simp only [Option.getD_some] at hok
      rw [hpt] at hok
      cases hok
  · intro r hr
    cases hme : mkExpense r with
    | error err => exact ⟨err, rfl⟩
    | ok e =>
      exfalso
      have := (mkExpense_ok hme).2.1
      rw [hr] at this
      cases this
  · intro r g h
    exact mkGroup_ok h

def rawExpC7w : RawExpense :=
  { group_id := some "g", description := some "d", amount := some 8,
    paid_by := some "w@x.com",
    splits := some [{ user := some "m@x.com", type := some "exact", share := some 8 }] }

def expC7w : Expense := ⟨"g", "d", 8, "USD", "w@x.com", none, [⟨"m@x.com", .exact, 8⟩], none⟩

def rawSplitC7w : RawSplitItem := { user := some "m@x.com", type := some "exact", share := some 8 }

def splitC7w : SplitItem := ⟨"m@x.com", .exact, 8⟩

def rawSplitC7neg : RawSplitItem := { user := some "a@b.com", share := some (-3) }

def rawSplitC7badtype : RawSplitItem := { user := some "a@b.com", type := some "weird" }

def rawExpC7noamt : RawExpense :=
  { group_id := some "g", description := some "d", paid_by := some "a@b.com" }

def rawGroupC7w : RawGroup :=
  { name := some "trip", created_by := some "c@x.com", members := some ["m@x.com", "c@x.com"] }

def groupC7w : Group := ⟨"trip", "c@x.com", ["m@x.com", "c@x.com"], "USD", none⟩

/-- Witness for the amended C7 at concrete inputs: an accepted expense,
split and group satisfy the constraints, and a negative share, an unknown
type string and a missing amount are each rejected. -/
theorem entity_field_constraints_enforced_witness :
    (0 < expC7w.amount ∧ isEmail expC7w.paid_by = true ∧
      ∀ s ∈ expC7w.splits, isEmail s.user = true ∧ 0 ≤ s.share) ∧
    (isEmail splitC7w.user = true ∧ 0 ≤ splitC7w.share) ∧
    (∃ err, mkSplitItem rawSplitC7neg = .error err) ∧
    (∃ err, mkSplitItem rawSplitC7badtype = .error err) ∧
    (∃ err, mkExpense rawExpC7noamt = .error err) ∧
    (isEmail groupC7w.created_by = true ∧ ∀ m ∈ groupC7w.members, isEmail m = true) :=
  ⟨entity_field_constraints_enforced.1 rawExpC7w expC7w rfl,
   entity_field_constraints_enforced.2.1 rawSplitC7w splitC7w rfl,
   entity_field_constraints_enforced.2.2.1 rawSplitC7neg (-3) rfl (by norm_num),
   entity_field_constraints_enforced.2.2.2.1 rawSplitC7badtype "weird" rfl rfl,
   entity_field_constraints_enforced.2.2.2.2.1 rawExpC7noamt rfl,
   entity_field_constraints_enforced.2.2.2.2.2 rawGroupC7w groupC7w rfl⟩

/-- Unfolding of `serializeDocCore` into its three stages. -/
theorem serializeDocCore_eq (doc : Doc) :
    serializeDocCore doc =
      (match lookupD doc "_id" with
        | some v =>
          if v ≠ Value.vNull
            then setKey (eraseKey doc "_id") "id" (.vStr (pyStr v))
            else eraseKey doc "_id"
        | none => eraseKey doc "_id").map
        (fun kv : String × Value => (kv.1, dtConv kv.2)) := rfl

def docC8 : Doc := [("_id", .vInt 5), ("id", .vStr "x")]

/-- C8 counterexample: the claim says serialization leaves every field other
than `_id` unchanged, but a document that already carries an `id` field has
that field overwritten by the stringified `_id`: on
`{_id: 5, id: "x"}` the output's `id` is `"5"`, not `"x"`. -/
theorem serialize_doc_overwrites_id :
    serialize_doc (some docC8) = some [("id", .vStr "5")] ∧
    lookupD docC8 "id" = some (.vStr "x") ∧
    lookupD [(("id" : String), Value.vStr "5")] "id" = some (.vStr "5") ∧
    Value.vStr "5" ≠ Value.vStr "x" :=
  ⟨rfl, rfl, rfl, by decide⟩

/-- C8 (amended): for a document with unique keys, no pre-existing `id`
field and a non-null `_id` if present: serialization removes `_id`, adds
`id` bound to the stringified `_id` when `_id` was present (no `id` field
otherwise), converts every datetime value to its ISO string, leaves every
other field's value unchanged, and maps an absent/null or empty document to
itself.  (The original claim fails only when the document already has an
`id` field — which the stringified `_id` overwrites — or a null `_id`,
which is dropped without adding `id`.) -/
theorem serialize_doc_spec (d : Doc) (hnd : (d.map Prod.fst).Nodup)
    (hid : lookupD d "id" = none)
    (hnn : lookupD d "_id" ≠ some Value.vNull) :
    serialize_doc none = none ∧
    (d = [] → serialize_doc (some d) = some d) ∧
    (d ≠ [] → serialize_doc (some d) = some (serializeDocCore d)) ∧
    lookupD (serializeDocCore d) "_id" = none ∧
    (∀ v, lookupD d "_id" = some v →
        lookupD (serializeDocCore d) "id" = some (.vStr (pyStr v))) ∧
    (lookupD d "_id" = none → lookupD (serializeDocCore d) "id" = none) ∧
    (∀ k, k ≠ "_id" → k ≠ "id" →
        lookupD (serializeDocCore d) k = (lookupD d k).map dtConv) := by
  refine ⟨rfl, ?_, ?_, ?_, ?_, ?_, ?_⟩
  · intro hd
    subst hd
    rfl
  · intro hd
    cases d with
    | nil => exact absurd rfl hd
    | cons kv rest => rfl
  · cases hpop : lookupD d "_id" with
    | none =>
      rw [serializeDocCore_eq, hpop, lookupD_mapVal, lookupD_eraseKey_self hnd]
      rfl
    | some v =>
      have hv : v ≠ Value.vNull := fun heq => hnn (by rw [hpop, heq])
      rw [serializeDocCore_eq, hpop]
      dsimp only
      rw [if_pos hv, lookupD_mapVal,
        lookupD_setKey_ne _ _ (show ("_id" : String) ≠ "id" by decide),
        lookupD_eraseKey_self hnd]
      rfl
  · intro v hpop
    have hv : v ≠ Value.vNull := fun heq => hnn (by rw [hpop, heq])
    rw [serializeDocCore_eq, hpop]
    dsimp only
    rw [if_pos hv, lookupD_mapVal, lookupD_setKey_self]
    rfl
  · intro hpop
    rw [serializeDocCore_eq, hpop, lookupD_mapVal,
      lookupD_eraseKey_ne _ (show ("id" : String) ≠ "_id" by decide), hid]
    rfl
  · intro k hk1 hk2
    cases hpop : lookupD d "_id" with
    | none =>
      rw [serializeDocCore_eq, hpop, lookupD_mapVal, lookupD_eraseKey_ne _ hk1]
    | some v =>
      have hv : v ≠ Value.vNull := fun heq => hnn (by rw [hpop, heq])
      rw [serializeDocCore_eq, hpop]
      dsimp only
      rw [if_pos hv, lookupD_mapVal, lookupD_setKey_ne _ _ hk2,
        lookupD_eraseKey_ne _ hk1]

def docC8w : Doc :=
  [("_id", .vObjectId "abc"), ("when", .vDatetime ⟨2024, 1, 2, 3, 4, 5⟩), ("n", .vInt 7)]

/-- Witness for the amended C8 on a concrete stored document: `_id` is
gone, `id` holds the stringified identifier, the datetime field is its ISO
string, and the remaining field is untouched. -/
theorem serialize_doc_spec_witness :
    lookupD (serializeDocCore docC8w) "_id" = none ∧
    lookupD (serializeDocCore docC8w) "id" = some (.vStr "abc") ∧
    lookupD (serializeDocCore docC8w) "when" =
      some (.vStr "2024-01-02T03:04:05") ∧
    lookupD (serializeDocCore docC8w) "n" = some (.vInt 7) :=
  ⟨(serialize_doc_spec docC8w (by decide) rfl (by decide)).2.2.2.1,
   (serialize_doc_spec docC8w (by decide) rfl (by decide)).2.2.2.2.1 (.vObjectId "abc") rfl,
   (serialize_doc_spec docC8w (by decide) rfl (by decide)).2.2.2.2.2.2 "when"
     (by decide) (by decide),
   (serialize_doc_spec docC8w (by decide) rfl (by decide)).2.2.2.2.2.2 "n"
     (by decide) (by decide)⟩

/-- C10: `serialize_doc` does not mutate its argument.  In the heap model
the function's first step `d = dict(doc)` allocates a fresh object and every
mutation (`pop`, `d["id"] = ...`, the datetime loop) writes to that copy, so
after the call the dict at the caller's reference is exactly what it was
before; moreover the dict at the returned reference is the pure
`serialize_doc` of the input. -/
theorem serialize_doc_heap_frame (h : Heap) (docRef : Nat)
    (hlt : docRef < h.cells.length) :
    (serialize_doc_heap h docRef).1.read docRef = h.read docRef ∧
    (serialize_doc_heap h docRef).1.read (serialize_doc_heap h docRef).2 =
      (serialize_doc (some (h.read docRef))).getD [] := by
  have hne : docRef ≠ h.cells.length := Nat.ne_of_lt hlt
  unfold serialize_doc_heap
  by_cases hemp : (h.read docRef).isEmpty
  · rw [if_pos hemp]
    refine ⟨rfl, ?_⟩
    unfold serialize_doc
    dsimp only
    rw [if_pos hemp]
    rfl
  · rw [if_neg hemp]
    dsimp only
    have halloc2 : (h.alloc (h.read docRef)).2 = h.cells.length := rfl
    have hd0 : (h.alloc (h.read docRef)).1.read (h.alloc (h.read docRef)).2 =
        h.read docRef := Heap.read_alloc_new h _
    have hlen1 : (h.alloc (h.read docRef)).1.cells.length = h.cells.length + 1 := by
      simp [Heap.alloc]
    have hdlt : (h.alloc (h.read docRef)).2 < (h.alloc (h.read docRef)).1.cells.length := by
      rw [halloc2, hlen1]
      exact Nat.lt_succ_self _
    have hneR : docRef ≠ (h.alloc (h.read docRef)).2 := by
      rw [halloc2]
      exact hne
    constructor
    · cases hpop : lookupD ((h.alloc (h.read docRef)).1.read (h.alloc (h.read docRef)).2) "_id" with
      | none =>
        dsimp only
        rw [Heap.read_write_ne _ _ hneR, Heap.read_write_ne _ _ hneR,
          Heap.read_alloc_old h _ hlt]
      | some v =>
        dsimp only
        by_cases hv : v ≠ Value.vNull
        · rw [if_pos hv, Heap.read_write_ne _ _ hneR, Heap.read_write_ne _ _ hneR,
            Heap.read_write_ne _ _ hneR, Heap.read_alloc_old h _ hlt]
        · rw [if_neg hv, Heap.read_write_ne _ _ hneR, Heap.read_write_ne _ _ hneR,
            Heap.read_alloc_old h _ hlt]
    · have hser : serialize_doc (some (h.read docRef)) =
          some (serializeDocCore (h.read docRef)) := by
        unfold serialize_doc
        dsimp only
        rw [if_neg hemp]
      rw [hser]
      rw [serializeDocCore_eq]
      cases hpop : lookupD ((h.alloc (h.read docRef)).1.read (h.alloc (h.read docRef)).2) "_id" with
      | none =>
        rw [hd0] at hpop
        rw [hpop]
        dsimp only
        have h2read : ((h.alloc (h.read docRef)).1.write (h.alloc (h.read docRef)).2
            (eraseKey ((h.alloc (h.read docRef)).1.read (h.alloc (h.read docRef)).2) "_id")).read
              (h.alloc (h.read docRef)).2 =
            eraseKey (h.read docRef) "_id" := by
          rw [Heap.read_write_self _ _ hdlt, hd0]
        rw [Heap.read_write_self _ _ (by rw [Heap.write_length]; exact hdlt), h2read]
        rfl
      | some v =>
        rw [hd0] at hpop
        rw [hpop]
        dsimp only
        by_cases hv : v ≠ Value.vNull
        · rw [if_pos hv, if_pos hv]
          have h2read : ((h.alloc (h.read docRef)).1.write (h.alloc (h.read docRef)).2
              (eraseKey ((h.alloc (h.read docRef)).1.read (h.alloc (h.read docRef)).2) "_id")).read
                (h.alloc (h.read docRef)).2 =
              eraseKey (h.read docRef) "_id" := by
            rw [Heap.read_write_self _ _ hdlt, hd0]
          rw [Heap.read_write_self _ _
              (by rw [Heap.write_length, Heap.write_length]; exact hdlt),
            Heap.read_write_self _ _ (by rw [Heap.write_length]; exact hdlt),
            h2read]
          rfl
        · rw [if_neg hv, if_neg hv]
          have h2read : ((h.alloc (h.read docRef)).1.write (h.alloc (h.read docRef)).2
              (eraseKey ((h.alloc (h.read docRef)).1.read (h.alloc (h.read docRef)).2) "_id")).read
                (h.alloc (h.read docRef)).2 =
              eraseKey (h.read docRef) "_id" := by
            rw [Heap.read_write_self _ _ hdlt, hd0]
          rw [Heap.read_write_self _ _ (by rw [Heap.write_length]; exact hdlt), h2read]
          rfl

def heapC10 : Heap := ⟨[[("_id", .vInt 5), ("k", .vStr "y")]]⟩

/-- Witness for C10 on a concrete heap: after serializing the only document,
the original cell still holds `{_id: 5, k: "y"}` and the result cell holds
the serialized form. -/
theorem serialize_doc_heap_frame_witness :
    (serialize_doc_heap heapC10 0).1.read 0 = [("_id", .vInt 5), ("k", .vStr "y")] ∧
    (serialize_doc_heap heapC10 0).1.read (serialize_doc_heap heapC10 0).2 =
      [("k", .vStr "y"), ("id", .vStr "5")] :=
  ⟨(serialize_doc_heap_frame heapC10 0 (by decide)).1,
   (serialize_doc_heap_frame heapC10 0 (by decide)).2⟩

end ExpenseSplit
